import Mathlib

/-!
Shallow embedding of the perfect-pitch interview coordinator:
`src/services/InterviewDatabaseService.ts` (the SQLite-backed persistence
store of a Durable Object) and `src/interview.ts` (the per-interview
session coordinator with its WebSocket session registry).

The store is modelled as two append-only lists of rows, mirroring the two
SQL tables; the list order is SQLite rowid (insertion) order, which is the
order the `GET_INTERVIEW` join visits message rows of one interview.
JS `Date.now()` and `crypto.randomUUID()` results enter as explicit
parameters.  Stored `skills` JSON round-trips `JSON.stringify`/`JSON.parse`
on a string list, so the column is modelled as the list itself.
-/

namespace PerfectPitch

/-- Error codes used by the service layer (`src/errors`):
`DATABASE_ERROR`, `TRANSCRIPTION_FAILED`, `LLM_FAILED`. -/
inductive ErrorCode where
  | databaseError
  | transcriptionFailed
  | llmFailed
deriving DecidableEq, Repr

/-- `InterviewError(message, code)` thrown by the service layer. -/
structure InterviewError where
  message : String
  code : ErrorCode
deriving DecidableEq, Repr

/-- A row of the `interviews` table.  `createdAt`/`updatedAt` are `Option`
so that a corrupt or absent stored value (JS `Number` of it gives `NaN`)
is representable for the integrity checks of `parseInterviewRecord`. -/
structure InterviewRow where
  interviewId : String
  title : String
  skills : List String
  status : String
  createdAt : Option Int
  updatedAt : Option Int
deriving DecidableEq, Repr

/-- A row of the `messages` table. -/
structure MessageRow where
  messageId : String
  interviewId : String
  role : String
  content : String
  timestamp : Int
deriving DecidableEq, Repr

/-- The SQLite state of one Durable Object: both tables, rows in
rowid (insertion) order. -/
structure DbState where
  interviews : List InterviewRow
  messages : List MessageRow
deriving DecidableEq, Repr

/-- The `Message` value returned by `addMessage` (interface `Message` in
`src/types`): built from the call arguments plus the `Date.now()` taken
before the insert. -/
structure Message where
  messageId : String
  interviewId : String
  role : String
  content : String
  timestamp : Int
deriving DecidableEq, Repr

/-- A message as returned inside `InterviewData` by `parseInterviewRecord`:
its `.map` keeps only `messageId`, `role`, `content`, `timestamp` (no
`interviewId` field is selected by the `json_object` of `GET_INTERVIEW`). -/
structure ParsedMessage where
  messageId : String
  role : String
  content : String
  timestamp : Int
deriving DecidableEq, Repr

/-- `InterviewData` as produced by `parseInterviewRecord`. -/
structure InterviewData where
  interviewId : String
  title : String
  skills : List String
  messages : List ParsedMessage
  status : String
  createdAt : Int
  updatedAt : Int
deriving DecidableEq, Repr

/-- JS `Number(record.createdAt)` followed by the truthiness test
`!createdAt`: an absent field (`Number` gives `NaN`) and the value `0`
are both falsy, every other integer is truthy. -/
def timestampOk : Option Int → Bool
  | none => false
  | some n => n != 0

/-- The guard of `parseInterviewRecord`:
`if (!interviewId || !createdAt || !updatedAt) throw ...`. -/
def rowOk (r : InterviewRow) : Bool :=
  r.interviewId != "" && timestampOk r.createdAt && timestampOk r.updatedAt

/-- The field selection `({messageId, role, content, timestamp})` applied
to each message object by `parseInterviewRecord`. -/
def toParsed (m : MessageRow) : ParsedMessage :=
  ⟨m.messageId, m.role, m.content, m.timestamp⟩

/-- `InterviewDatabaseService.parseInterviewRecord`.  `msgs = none` models
a record with no `messages` column (the `GET_ALL_INTERVIEWS` shape, where
`record.messages` is `undefined`); `msgs = some raw` models the parsed
`json_group_array` value, whose entries are `null` (`none`) exactly when
the LEFT JOIN produced no message row.  The `.filter((m) => m !== null)`
is `List.filterMap id`. -/
def parseInterviewRecord (row : InterviewRow) (msgs : Option (List (Option MessageRow))) :
    Except InterviewError InterviewData :=
  if rowOk row then
    .ok
      { interviewId := row.interviewId
        title := row.title
        skills := row.skills
        messages :=
          match msgs with
          | none => []
          | some raw => (raw.filterMap id).map toParsed
        status := row.status
        createdAt := row.createdAt.getD 0
        updatedAt := row.updatedAt.getD 0 }
  else
    .error ⟨"Invalid interview data in database", .databaseError⟩

/-- The rows of the `messages` table belonging to one interview, in rowid
order: the `LEFT JOIN messages m ON i.interviewId = m.interviewId` of
`GET_INTERVIEW`. -/
def interviewMessages (db : DbState) (iid : String) : List MessageRow :=
  db.messages.filter (fun m => m.interviewId == iid)

/-- `InterviewDatabaseService.getInterview`: runs `GET_INTERVIEW`, returns
`none` when the interview id is unknown, otherwise parses the joined
record; a parse failure is re-thrown wrapped as a `DATABASE_ERROR`. -/
def getInterview (db : DbState) (iid : String) : Except InterviewError (Option InterviewData) :=
  match db.interviews.find? (fun r => r.interviewId == iid) with
  | none => .ok none
  | some row =>
    let ms := interviewMessages db iid
    let raw : List (Option MessageRow) := if ms.isEmpty then [none] else ms.map some
    match parseInterviewRecord row (some raw) with
    | .error e => .error ⟨"Failed to retrieve interview: " ++ e.message, .databaseError⟩
    | .ok d => .ok (some d)

/-- The `ORDER BY createdAt DESC` comparison; SQL `NULL` sorts below every
value, so under `DESC` it comes last. -/
def newerOrEq (a b : InterviewRow) : Bool :=
  match a.createdAt, b.createdAt with
  | some x, some y => y ≤ x
  | some _, none => true
  | none, some _ => false
  | none, none => true

/-- Insertion step of the `ORDER BY createdAt DESC` model. -/
def insertByCreatedAtDesc (r : InterviewRow) : List InterviewRow → List InterviewRow
  | [] => [r]
  | x :: xs => if newerOrEq x r then x :: insertByCreatedAtDesc r xs else r :: x :: xs

/-- `ORDER BY createdAt DESC` over the `interviews` table. -/
def orderByCreatedAtDesc : List InterviewRow → List InterviewRow
  | [] => []
  | x :: xs => insertByCreatedAtDesc x (orderByCreatedAtDesc xs)

/-- `[...cursor].map(this.parseInterviewRecord)`: JS `.map` propagates the
first thrown parse error. -/
def parseAll : List InterviewRow → Except InterviewError (List InterviewData)
  | [] => .ok []
  | r :: rest =>
    match parseInterviewRecord r none with
    | .error e => .error e
    | .ok d =>
      match parseAll rest with
      | .error e => .error e
      | .ok ds => .ok (d :: ds)

/-- `InterviewDatabaseService.getAllInterviews`: `GET_ALL_INTERVIEWS`
selects no `messages` column; parse errors are wrapped as
`DATABASE_ERROR`. -/
def getAllInterviews (db : DbState) : Except InterviewError (List InterviewData) :=
  match parseAll (orderByCreatedAtDesc db.interviews) with
  | .error e => .error ⟨"Failed to retrieve interviews: " ++ e.message, .databaseError⟩
  | .ok l => .ok l

/-- The row `INSERT_INTERVIEW` writes: status `InterviewStatus.Created`
(`"created"`), both timestamps set to the one `Date.now()` value. -/
def newInterviewRow (id title : String) (skills : List String) (now : Int) : InterviewRow :=
  ⟨id, title, skills, "created", some now, some now⟩

/-- `InterviewDatabaseService.createInterview` with the results of
`crypto.randomUUID()` and `Date.now()` as explicit parameters `id` and
`now`; a duplicate primary key makes the insert throw, re-thrown as an
`InterviewError`. -/
def createInterview (db : DbState) (id title : String) (skills : List String) (now : Int) :
    Except InterviewError (String × DbState) :=
  if db.interviews.any (fun r => r.interviewId == id) then
    .error ⟨"Failed to create interview: UNIQUE constraint failed: interviews.interviewId",
            .databaseError⟩
  else
    .ok (id, ⟨db.interviews ++ [newInterviewRow id title skills now], db.messages⟩)

/-- `InterviewDatabaseService.addMessage` with `Date.now()` as parameter
`now`.  `INSERT_MESSAGE` throws on a duplicate `messageId` primary key and
on the `FOREIGN KEY (interviewId) REFERENCES interviews(interviewId)`
violation; both are re-thrown as `InterviewError`s.  On success exactly
one row is appended and the returned `Message` is built from the call's
arguments and `now`, not re-read from storage. -/
def addMessage (db : DbState) (iid role content mid : String) (now : Int) :
    Except InterviewError (Message × DbState) :=
  if db.messages.any (fun m => m.messageId == mid) then
    .error ⟨"Failed to add message: UNIQUE constraint failed: messages.messageId",
            .databaseError⟩
  else if !(db.interviews.any (fun r => r.interviewId == iid)) then
    .error ⟨"Failed to add message: FOREIGN KEY constraint failed", .databaseError⟩
  else
    .ok (⟨mid, iid, role, content, now⟩,
         ⟨db.interviews, db.messages ++ [⟨mid, iid, role, content, now⟩]⟩)

/-- The storage state after an `addMessage` call whether it succeeded or
threw: a thrown insert leaves the tables untouched. -/
def addMessageState (db : DbState) (iid role content mid : String) (now : Int) : DbState :=
  match addMessage db iid role content mid now with
  | .ok (_, db2) => db2
  | .error _ => db

/-- One request of a sequence of `addMessage` calls. -/
structure AddReq where
  interviewId : String
  role : String
  content : String
  messageId : String
  time : Int
deriving DecidableEq, Repr

/-- Runs a sequence of `addMessage` calls: a call that throws leaves the
storage unchanged and the sequence continues with the next call. -/
def applyAdds : DbState → List AddReq → DbState
  | db, [] => db
  | db, r :: rest =>
    match addMessage db r.interviewId r.role r.content r.messageId r.time with
    | .ok (_, db2) => applyAdds db2 rest
    | .error _ => applyAdds db rest

/-- The rows actually inserted by a sequence of `addMessage` calls, in
call (creation) order; calls that throw contribute nothing. -/
def acceptedRows : DbState → List AddReq → List MessageRow
  | _, [] => []
  | db, r :: rest =>
    match addMessage db r.interviewId r.role r.content r.messageId r.time with
    | .ok (_, db2) => ⟨r.messageId, r.interviewId, r.role, r.content, r.time⟩ :: acceptedRows db2 rest
    | .error _ => acceptedRows db rest

/-! ## Session registry and coordinator (`src/interview.ts`)

A WebSocket connection is an opaque identifier `Conn`; the registry
`this.sessions : Map<WebSocket, {interviewId}>` is an association list.
Transport observations enter as predicates: `openC ws` is
`ws.readyState === WebSocket.OPEN` and `okC ws` is whether `ws.send`
succeeds rather than throws. -/

/-- An opaque WebSocket connection handle. -/
abbrev Conn := Nat

/-- The session registry: live connection paired with its interview id. -/
abbrev Sessions := List (Conn × String)

/-- `webSocketClose` / `onDetach`: `this.sessions.delete(ws)`. -/
def detach (sessions : Sessions) (ws : Conn) : Sessions :=
  sessions.filter (fun p => p.1 != ws)

/-- Wire events sent to a connection: the pipeline-start `processing`
status payload, the completed-message broadcast of `Interview.addMessage`,
and the `{type: 'error', message}` payload of `handleWebSocketError`. -/
inductive WsEvent where
  | processing (role messageId interviewId : String)
  | completed (m : Message)
  | errorMsg (text : String)
deriving DecidableEq, Repr

/-- Whether an event is an error payload. -/
def isErrorEv : WsEvent → Bool
  | .errorMsg _ => true
  | _ => false

/-- Whether a delivered `(connection, event)` pair carries an error payload. -/
def isErrorEvent (p : Conn × WsEvent) : Bool :=
  isErrorEv p.2

/-- `Interview.broadcast`: iterates the sessions map; for each entry whose
pairing matches the interview and whose transport is open, `ws.send` runs
inside `try/catch` — a throwing send is logged and the iteration
continues.  The result is the list of deliveries that succeeded, in
registry order; the function is total (never raises to the caller). -/
def broadcast (openC okC : Conn → Bool) (iid : String) (ev : WsEvent) : Sessions → List (Conn × WsEvent)
  | [] => []
  | (ws, sid) :: rest =>
    if sid == iid && openC ws then
      (if okC ws then [(ws, ev)] else []) ++ broadcast openC okC iid ev rest
    else
      broadcast openC okC iid ev rest

/-- The connections on which `Interview.broadcast` attempts `ws.send`
(the body of its `if` guard), in registry order. -/
def broadcastAttempts (openC : Conn → Bool) (iid : String) : Sessions → List Conn
  | [] => []
  | (ws, sid) :: rest =>
    if sid == iid && openC ws then
      ws :: broadcastAttempts openC iid rest
    else
      broadcastAttempts openC iid rest

/-- `Interview.handleWebSocketError`: sends one `{type: 'error'}` payload
to the originating connection when its transport is still open. -/
def handleWebSocketError (openC : Conn → Bool) (ws : Conn) (msg : String) : List (Conn × WsEvent) :=
  if openC ws then [(ws, .errorMsg msg)] else []

/-- `Interview.addMessage`: persists through the database service, then
broadcasts the completed message (`{...newMessage, type: 'message'}`) to
every connection of the interview; a database throw propagates to the
caller before any broadcast. -/
def coordAddMessage (db : DbState) (sessions : Sessions) (openC okC : Conn → Bool)
    (iid role content mid : String) (now : Int) :
    Except InterviewError (Message × DbState × List (Conn × WsEvent)) :=
  match addMessage db iid role content mid now with
  | .error e => .error e
  | .ok (m, db2) => .ok (m, db2, broadcast openC okC iid (.completed m) sessions)

/-- The coordinator state a `webSocketMessage` event sees: the session
registry and the Durable Object storage. -/
structure CoordState where
  sessions : Sessions
  db : DbState

/-- `Interview.handleBinaryAudio`, one audio submission.  The two adapter
outcomes enter as parameters: `transcription` is the result of
`aiService.transcribeAudio` and `llm` the result of
`aiService.processLLMResponse`; `mid`/`amid` are the two
`crypto.randomUUID()` results and `t1`/`t2` the two `Date.now()` values of
the inserts.  Every throw inside the `try` lands in the method's own
`catch`, which calls `handleWebSocketError` on the originating
connection; the function returns the resulting storage and the
concatenated deliveries. -/
def handleBinaryAudio (st : CoordState) (openC okC : Conn → Bool) (ws : Conn)
    (transcription llm : Except InterviewError String)
    (mid amid : String) (t1 t2 : Int) : DbState × List (Conn × WsEvent) :=
  match st.sessions.find? (fun p => p.1 == ws) with
  | none => (st.db, handleWebSocketError openC ws "No interview session found")
  | some (_, iid) =>
    if iid == "" then
      (st.db, handleWebSocketError openC ws "No interview session found")
    else
      let ev1 := broadcast openC okC iid (.processing "user" mid iid) st.sessions
      match transcription with
      | .error e => (st.db, ev1 ++ handleWebSocketError openC ws e.message)
      | .ok text =>
        match coordAddMessage st.db st.sessions openC okC iid "user" text mid t1 with
        | .error e => (st.db, ev1 ++ handleWebSocketError openC ws e.message)
        | .ok (_, db1, ev2) =>
          match getInterview db1 iid with
          | .error e => (db1, ev1 ++ ev2 ++ handleWebSocketError openC ws e.message)
          | .ok none =>
            (db1, ev1 ++ ev2 ++ handleWebSocketError openC ws ("Interview not found: " ++ iid))
          | .ok (some _) =>
            let ev3 := broadcast openC okC iid (.processing "assistant" amid iid) st.sessions
            match llm with
            | .error e => (db1, ev1 ++ ev2 ++ ev3 ++ handleWebSocketError openC ws e.message)
            | .ok resp =>
              match coordAddMessage db1 st.sessions openC okC iid "assistant" resp amid t2 with
              | .error e => (db1, ev1 ++ ev2 ++ ev3 ++ handleWebSocketError openC ws e.message)
              | .ok (_, db2, ev4) => (db2, ev1 ++ ev2 ++ ev3 ++ ev4)

/-! ## Interleaving semantics for concurrent `onAudio` pipelines

`handleBinaryAudio` performs its two persistence writes in distinct
micro-task segments: between `addMessage(user)` and
`addMessage(assistant)` the handler awaits `db.getInterview` and the
Response Adapter (`processLLMResponse`), and before `addMessage(user)` it
awaits the Transcription Adapter.  The Durable Object delivers a second
`webSocketMessage` event at any such await point (no lock or
`blockConcurrencyWhile` guards the pipeline), so the reachable storage
histories of two concurrent submissions are exactly the order-preserving
interleavings of their per-run persist sequences; each single `sql.exec`
insert is atomic. -/

/-- Order-preserving interleaving of two sequences. -/
inductive Interleave : List α → List α → List α → Prop where
  | nil : Interleave [] [] []
  | left {x : α} {xs ys zs : List α} :
      Interleave xs ys zs → Interleave (x :: xs) ys (x :: zs)
  | right {y : α} {xs ys zs : List α} :
      Interleave xs ys zs → Interleave xs (y :: ys) (y :: zs)

/-- The two atomic persistence writes of one successful
`handleBinaryAudio` run, as storage transformers: the user message insert
followed (after the awaited adapter calls) by the assistant message
insert. -/
def pipelinePersists (iid text resp mid amid : String) (t1 t2 : Int) :
    List (DbState → DbState) :=
  [fun db => addMessageState db iid "user" text mid t1,
   fun db => addMessageState db iid "assistant" resp amid t2]

/-- Runs a schedule of atomic storage writes in order. -/
def applySched (db : DbState) (l : List (DbState → DbState)) : DbState :=
  l.foldl (fun d f => f d) db

/-- Concrete storage for the interleaving counterexample: one well-formed
interview, no messages. -/
def cexDb : DbState :=
  ⟨[⟨"I1", "System Architect Interview", ["SQL", "Communication"], "created", some 5, some 5⟩], []⟩

/-- A concrete schedule of two concurrent pipeline runs on `cexDb`'s
interview: run A persists its user message, then run B persists its user
message while run A awaits the Response Adapter, then both assistant
messages follow. -/
def cexSched : List (DbState → DbState) :=
  [fun db => addMessageState db "I1" "user" "hello" "uA" 10,
   fun db => addMessageState db "I1" "user" "question" "uB" 12,
   fun db => addMessageState db "I1" "assistant" "hi there" "aA" 11,
   fun db => addMessageState db "I1" "assistant" "answer" "aB" 13]

/-- Whether `x` is immediately followed by `y` somewhere in `l`: the
"uninterrupted consecutive pair" shape of the ordering law. -/
def hasAdjacentPair (x y : String) : List String → Bool
  | a :: b :: rest => (a == x && b == y) || hasAdjacentPair x y (b :: rest)
  | _ => false

/-! ## Concrete fixtures used by witnesses -/

/-- A storage state with one well-formed interview and no messages. -/
def wDb : DbState :=
  ⟨[⟨"I1", "Junior Data Analyst Interview", ["Python", "SQL"], "created", some 100, some 100⟩], []⟩

/-- The single interview row of `wDb`. -/
def wRow : InterviewRow :=
  ⟨"I1", "Junior Data Analyst Interview", ["Python", "SQL"], "created", some 100, some 100⟩

/-- Two `addMessage` requests against `wDb`'s interview. -/
def wReqs : List AddReq :=
  [⟨"I1", "user", "hello", "m1", 10⟩, ⟨"I1", "assistant", "hi", "m2", 11⟩]

/-- The message row inserted by the first request of `wReqs`. -/
def wMsgRow : MessageRow := ⟨"m1", "I1", "user", "hello", 10⟩

/-- `wDb` after the insert of `wMsgRow`. -/
def wDb1 : DbState := ⟨wDb.interviews, wDb.messages ++ [wMsgRow]⟩

/-- A storage state whose only interview row has `createdAt = 0`. -/
def badDb : DbState :=
  ⟨[⟨"I2", "System Architect Interview", ["SQL"], "created", some 0, some 3⟩], []⟩

/-- The corrupt row of `badDb`. -/
def badRow : InterviewRow := ⟨"I2", "System Architect Interview", ["SQL"], "created", some 0, some 3⟩

/-- A registry with three live connections, two of them on interview `I1`. -/
def wSessions : Sessions := [(1, "I1"), (2, "I1"), (3, "I2")]

/-- A transport predicate under which every connection is open and every
send succeeds. -/
def allOpen : Conn → Bool := fun _ => true

/-- Coordinator state for the transcription-failure witness: one open
connection on `wDb`'s interview. -/
def c3St : CoordState := ⟨[(1, "I1")], wDb⟩

/-- The error `AIService.transcribeAudio` throws. -/
def c3Err : InterviewError := ⟨"Failed to transcribe audio content", .transcriptionFailed⟩

/-! ## Helper lemmas -/

/-- A successful `addMessage` returns the `Message` built from its
arguments and appends exactly that row, leaving `interviews` untouched. -/
theorem addMessage_ok_spec {db : DbState} {iid role content mid : String} {now : Int}
    {m : Message} {db2 : DbState}
    (h : addMessage db iid role content mid now = .ok (m, db2)) :
    m = ⟨mid, iid, role, content, now⟩ ∧
    db2.interviews = db.interviews ∧
    db2.messages = db.messages ++ [⟨mid, iid, role, content, now⟩] := by
  unfold addMessage at h
  split at h
  · simp at h
  · split at h
    · simp at h
    · simp only [Except.ok.injEq, Prod.mk.injEq] at h
      exact ⟨h.1.symm, by rw [← h.2], by rw [← h.2]⟩

/-- `applyAdds` never touches the `interviews` table. -/
theorem applyAdds_interviews (reqs : List AddReq) :
    ∀ db : DbState, (applyAdds db reqs).interviews = db.interviews := by
  induction reqs with
  | nil => intro db; rfl
  | cons r rest ih =>
    intro db
    simp only [applyAdds]
    cases h : addMessage db r.interviewId r.role r.content r.messageId r.time with
    | ok p => rw [ih p.2, (addMessage_ok_spec (by rw [h])).2.1]
    | error e => exact ih db

/-- A sequence of `addMessage` calls appends exactly its accepted rows, in
call order. -/
theorem applyAdds_messages (reqs : List AddReq) :
    ∀ db : DbState, (applyAdds db reqs).messages = db.messages ++ acceptedRows db reqs := by
  induction reqs with
  | nil => intro db; simp [applyAdds, acceptedRows]
  | cons r rest ih =>
    intro db
    simp only [applyAdds, acceptedRows]
    cases h : addMessage db r.interviewId r.role r.content r.messageId r.time with
    | ok p =>
      rw [ih p.2, (addMessage_ok_spec (by rw [h])).2.2]
      simp
    | error e => exact ih db

/-- Every accepted row carries the interview id of its request. -/
theorem acceptedRows_interviewId {reqs : List AddReq} {iid : String}
    (hreqs : ∀ r ∈ reqs, r.interviewId = iid) :
    ∀ db : DbState, ∀ mrow ∈ acceptedRows db reqs, mrow.interviewId = iid := by
  induction reqs with
  | nil => intro db mrow hm; simp [acceptedRows] at hm
  | cons r rest ih =>
    intro db mrow hm
    simp only [acceptedRows] at hm
    cases h : addMessage db r.interviewId r.role r.content r.messageId r.time with
    | ok p =>
      rw [h] at hm
      rcases List.mem_cons.mp hm with h1 | h1
      · rw [h1]; exact hreqs r (List.mem_cons_self r rest)
      · exact ih (fun q hq => hreqs q (List.mem_cons_of_mem r hq)) p.2 mrow h1
    | error e =>
      rw [h] at hm
      exact ih (fun q hq => hreqs q (List.mem_cons_of_mem r hq)) db mrow hm

/-- Unfolding `getInterview` when the interview row is found. -/
theorem getInterview_found {db : DbState} {iid : String} {row : InterviewRow}
    (hfind : db.interviews.find? (fun r => r.interviewId == iid) = some row) :
    getInterview db iid =
      (match parseInterviewRecord row
          (some (if (interviewMessages db iid).isEmpty then [none]
                 else (interviewMessages db iid).map some)) with
       | .error e => .error ⟨"Failed to retrieve interview: " ++ e.message, .databaseError⟩
       | .ok d => .ok (some d)) := by
  unfold getInterview
  rw [hfind]

/-- A record failing the integrity guard makes `parseInterviewRecord`
throw. -/
theorem parse_error_of_bad {row : InterviewRow} {msgs : Option (List (Option MessageRow))}
    (h : rowOk row = false) :
    parseInterviewRecord row msgs = .error ⟨"Invalid interview data in database", .databaseError⟩ := by
  simp [parseInterviewRecord, h]

/-- A corrupt row anywhere in the list makes the record-mapping throw. -/
theorem parseAll_error {l : List InterviewRow} {row : InterviewRow}
    (hmem : row ∈ l) (hbad : rowOk row = false) :
    ∃ e, parseAll l = .error e := by
  induction l with
  | nil => simp at hmem
  | cons x xs ih =>
    rcases List.mem_cons.mp hmem with h1 | h1
    · subst h1
      exact ⟨⟨"Invalid interview data in database", .databaseError⟩,
        by simp [parseAll, parse_error_of_bad hbad]⟩
    · cases hx : parseInterviewRecord x none with
      | error e => exact ⟨e, by simp [parseAll, hx]⟩
      | ok d =>
        obtain ⟨e, he⟩ := ih h1
        exact ⟨e, by simp [parseAll, hx, he]⟩

/-- Membership is preserved by the ordering insertion step. -/
theorem mem_insertByCreatedAtDesc (a r : InterviewRow) :
    ∀ l : List InterviewRow, a ∈ insertByCreatedAtDesc r l ↔ a = r ∨ a ∈ l := by
  intro l
  induction l with
  | nil => simp [insertByCreatedAtDesc]
  | cons x xs ih =>
    simp only [insertByCreatedAtDesc]
    split
    · rw [List.mem_cons, List.mem_cons, ih]
      tauto
    · rw [List.mem_cons]

/-- `ORDER BY createdAt DESC` permutes the rows: membership is preserved. -/
theorem mem_orderByCreatedAtDesc (a : InterviewRow) :
    ∀ l : List InterviewRow, a ∈ orderByCreatedAtDesc l ↔ a ∈ l := by
  intro l
  induction l with
  | nil => simp [orderByCreatedAtDesc]
  | cons x xs ih => simp [orderByCreatedAtDesc, mem_insertByCreatedAtDesc, ih]

/-- Any interleaving keeps each contributing sequence as a sublist, i.e.
in its own order. -/
theorem interleave_sublists {α : Type _} {xs ys zs : List α} (h : Interleave xs ys zs) :
    xs.Sublist zs ∧ ys.Sublist zs := by
  induction h with
  | nil => exact ⟨List.Sublist.refl [], List.Sublist.refl []⟩
  | left h ih => exact ⟨ih.1.cons₂ _, ih.2.cons _⟩
  | right h ih => exact ⟨ih.1.cons _, ih.2.cons₂ _⟩

/-- A broadcast of a non-error payload contributes no error events. -/
theorem filter_isErrorEvent_broadcast {openC okC : Conn → Bool} {iid : String} (ev : WsEvent)
    (h : isErrorEv ev = false) :
    ∀ s : Sessions, (broadcast openC okC iid ev s).filter isErrorEvent = [] := by
  intro s
  induction s with
  | nil => rfl
  | cons p rest ih =>
    obtain ⟨ws, sid⟩ := p
    simp only [broadcast]
    split
    · split
      · simp [isErrorEvent, h, ih]
      · simp [ih]
    · exact ih

/-! ## The claims -/

/-- Claim C1: for every interview and every sequence of `addMessage` calls
on it, `getInterview` returns exactly the rows those calls inserted, in
call (creation) order, with no loss or duplication, for every reader of
the resulting storage state. -/
theorem claim_C1_message_order (db : DbState) (reqs : List AddReq) (iid : String)
    (row : InterviewRow)
    (hfind : db.interviews.find? (fun r => r.interviewId == iid) = some row)
    (hok : rowOk row = true)
    (hempty : interviewMessages db iid = [])
    (hreqs : ∀ r ∈ reqs, r.interviewId = iid) :
    ∃ d : InterviewData, getInterview (applyAdds db reqs) iid = .ok (some d) ∧
      d.messages = (acceptedRows db reqs).map toParsed := by
  have hfilter : interviewMessages (applyAdds db reqs) iid = acceptedRows db reqs := by
    unfold interviewMessages at hempty ⊢
    rw [applyAdds_messages, List.filter_append, hempty, List.nil_append]
    apply List.filter_eq_self.mpr
    intro a ha
    exact beq_iff_eq.mpr (acceptedRows_interviewId hreqs db a ha)
  have hfind2 : (applyAdds db reqs).interviews.find? (fun r => r.interviewId == iid)
      = some row := by
    rw [applyAdds_interviews]
    exact hfind
  rw [getInterview_found hfind2, hfilter]
  cases hacc : acceptedRows db reqs with
  | nil =>
    exact ⟨⟨row.interviewId, row.title, row.skills, [], row.status,
        row.createdAt.getD 0, row.updatedAt.getD 0⟩,
      by simp [parseInterviewRecord, hok], by simp⟩
  | cons a as =>
    refine ⟨⟨row.interviewId, row.title, row.skills, (a :: as).map toParsed, row.status,
        row.createdAt.getD 0, row.updatedAt.getD 0⟩, ?_, rfl⟩
    simp [parseInterviewRecord, hok, List.filterMap_map]

/-- Witness for C1: two `addMessage` calls on a concrete fresh interview. -/
theorem claim_C1_witness :
    ∃ d : InterviewData, getInterview (applyAdds wDb wReqs) "I1" = .ok (some d) ∧
      d.messages = (acceptedRows wDb wReqs).map toParsed :=
  claim_C1_message_order wDb wReqs "I1" wRow (by decide) (by decide) (by decide) (by decide)

/-- Claim C4: `createInterview` then `getInterview` on the returned id
yields status `created`, the supplied title and skills, an empty message
list, and `createdAt = updatedAt = now`. -/
theorem claim_C4_create_then_get (db : DbState) (id title : String) (skills : List String)
    (now : Int)
    (_hskills : skills ≠ [])
    (hid : id ≠ "")
    (hnow : now ≠ 0)
    (hfresh : db.interviews.any (fun r => r.interviewId == id) = false)
    (hnomsgs : interviewMessages db id = []) :
    ∃ db2, createInterview db id title skills now = .ok (id, db2) ∧
      getInterview db2 id = .ok (some ⟨id, title, skills, [], "created", now, now⟩) := by
  refine ⟨(⟨db.interviews ++ [newInterviewRow id title skills now], db.messages⟩ : DbState),
    ?_, ?_⟩
  · unfold createInterview
    rw [hfresh]
    rfl
  · have hnone : db.interviews.find? (fun r => r.interviewId == id) = none :=
      List.find?_eq_none.mpr (by simpa using List.any_eq_false.mp hfresh)
    have hfind2 : (db.interviews ++ [newInterviewRow id title skills now]).find?
        (fun r => r.interviewId == id) = some (newInterviewRow id title skills now) := by
      rw [List.find?_append, hnone]
      simp [List.find?, newInterviewRow]
    have h3 : interviewMessages
        (⟨db.interviews ++ [newInterviewRow id title skills now], db.messages⟩ : DbState) id
        = [] := hnomsgs
    rw [getInterview_found hfind2, h3]
    simp [parseInterviewRecord, rowOk, timestampOk, bne_iff_ne, hid, hnow, newInterviewRow]

/-- Witness for C4 on a concrete store and creation input. -/
theorem claim_C4_witness :
    ∃ db2, createInterview wDb "I9" "BusinessAnalyst" ["SQL"] 50 = .ok ("I9", db2) ∧
      getInterview db2 "I9" = .ok (some ⟨"I9", "BusinessAnalyst", ["SQL"], [], "created", 50, 50⟩) :=
  claim_C4_create_then_get wDb "I9" "BusinessAnalyst" ["SQL"] 50
    (by decide) (by decide) (by decide) (by decide) (by decide)

/-- Claim C10: a stored interview record whose `createdAt` or `updatedAt`
is absent or converts to the number `0` (including the legitimate epoch
instant), or whose `interviewId` is the empty string, makes both
`getInterview` and `getAllInterviews` throw a data-integrity error rather
than return the record. -/
theorem claim_C10_data_integrity (db : DbState) (iid : String) (row : InterviewRow)
    (hfind : db.interviews.find? (fun r => r.interviewId == iid) = some row)
    (hbad : row.interviewId = "" ∨ row.createdAt = none ∨ row.createdAt = some 0 ∨
            row.updatedAt = none ∨ row.updatedAt = some 0) :
    (∃ e, getInterview db iid = .error e) ∧ (∃ e, getAllInterviews db = .error e) := by
  have hro : rowOk row = false := by
    rcases hbad with h | h | h | h | h <;> simp [rowOk, timestampOk, h]
  constructor
  · rw [getInterview_found hfind, parse_error_of_bad hro]
    exact ⟨_, rfl⟩
  · have hmem : row ∈ orderByCreatedAtDesc db.interviews :=
      (mem_orderByCreatedAtDesc row db.interviews).mpr (List.mem_of_find?_eq_some hfind)
    obtain ⟨e, he⟩ := parseAll_error hmem hro
    unfold getAllInterviews
    rw [he]
    exact ⟨_, rfl⟩

/-- Witness for C10 on a concrete store whose row has `createdAt = 0`. -/
theorem claim_C10_witness :
    (∃ e, getInterview badDb "I2" = .error e) ∧ (∃ e, getAllInterviews badDb = .error e) :=
  claim_C10_data_integrity badDb "I2" badRow (by decide) (by decide)

/-- Claim C2 (counterexample): the persisted messages of two concurrent
`onAudio` pipeline runs CAN interleave.  `cexSched` is an order-preserving
interleaving of the two runs' persist sequences — reachable because the
Durable Object may deliver the second audio event while the first run
awaits its Response Adapter — and in the resulting storage run A's user
and assistant messages are separated by run B's user message, so they do
not form an uninterrupted consecutive pair. -/
theorem claim_C2_counterexample :
    Interleave (pipelinePersists "I1" "hello" "hi there" "uA" "aA" 10 11)
      (pipelinePersists "I1" "question" "answer" "uB" "aB" 12 13) cexSched ∧
    (applySched cexDb cexSched).messages.map MessageRow.messageId = ["uA", "uB", "aA", "aB"] ∧
    hasAdjacentPair "uA" "aA" ((applySched cexDb cexSched).messages.map MessageRow.messageId)
      = false := by
  refine ⟨?_, by decide, by decide⟩
  exact .left (.right (.left (.right .nil)))

/-- Claim C2 (amended): the coordinator does not serialize concurrent
`onAudio` runs, so one run's persisted user→assistant pair need not be
consecutive in storage; what every schedule does preserve is each run's
internal order — its user-message persist occurs before its
assistant-message persist. -/
theorem claim_C2_amended_run_order (iidA textA respA midA amidA : String) (t1A t2A : Int)
    (iidB textB respB midB amidB : String) (t1B t2B : Int) (l : List (DbState → DbState))
    (h : Interleave (pipelinePersists iidA textA respA midA amidA t1A t2A)
      (pipelinePersists iidB textB respB midB amidB t1B t2B) l) :
    (pipelinePersists iidA textA respA midA amidA t1A t2A).Sublist l ∧
    (pipelinePersists iidB textB respB midB amidB t1B t2B).Sublist l :=
  interleave_sublists h

/-- Witness for the amended C2 at the concrete schedule `cexSched`. -/
theorem claim_C2_witness :
    (pipelinePersists "I1" "hello" "hi there" "uA" "aA" 10 11).Sublist cexSched ∧
    (pipelinePersists "I1" "question" "answer" "uB" "aB" 12 13).Sublist cexSched :=
  claim_C2_amended_run_order "I1" "hello" "hi there" "uA" "aA" 10 11
    "I1" "question" "answer" "uB" "aB" 12 13 cexSched (.left (.right (.left (.right .nil))))

/-- Claim C3: when the Transcription Adapter fails, `handleBinaryAudio`
persists nothing, exactly one error event goes to the originating (open)
connection, and the coordinator state a subsequent `onAudio` sees is
unchanged, so the next call proceeds exactly like a first call. -/
theorem claim_C3_transcription_failure (st : CoordState) (openC okC : Conn → Bool) (ws : Conn)
    (iid : String) (e : InterviewError) (llm : Except InterviewError String)
    (mid amid : String) (t1 t2 : Int)
    (hfind : st.sessions.find? (fun p => p.1 == ws) = some (ws, iid))
    (hiid : iid ≠ "")
    (hopen : openC ws = true) :
    (handleBinaryAudio st openC okC ws (.error e) llm mid amid t1 t2).1 = st.db ∧
    (handleBinaryAudio st openC okC ws (.error e) llm mid amid t1 t2).2.filter isErrorEvent
      = [(ws, .errorMsg e.message)] ∧
    ∀ (tr2 llm2 : Except InterviewError String) (mid2 amid2 : String) (u1 u2 : Int),
      handleBinaryAudio
          ⟨st.sessions, (handleBinaryAudio st openC okC ws (.error e) llm mid amid t1 t2).1⟩
          openC okC ws tr2 llm2 mid2 amid2 u1 u2
        = handleBinaryAudio st openC okC ws tr2 llm2 mid2 amid2 u1 u2 := by
  have hne : (iid == "") = false := beq_eq_false_iff_ne.mpr hiid
  have hrun : handleBinaryAudio st openC okC ws (.error e) llm mid amid t1 t2
      = (st.db, broadcast openC okC iid (.processing "user" mid iid) st.sessions
          ++ handleWebSocketError openC ws e.message) := by
    unfold handleBinaryAudio
    rw [hfind]
    simp [hne]
  refine ⟨by rw [hrun], ?_, ?_⟩
  · rw [hrun]
    rw [List.filter_append,
      filter_isErrorEvent_broadcast (.processing "user" mid iid) rfl st.sessions]
    simp [handleWebSocketError, hopen, isErrorEvent, isErrorEv]
  · intro tr2 llm2 mid2 amid2 u1 u2
    rw [hrun]

/-- Witness for C3 on a concrete coordinator state and failing
transcription. -/
theorem claim_C3_witness :
    (handleBinaryAudio c3St allOpen allOpen 1 (.error c3Err) (.ok "resp") "m1" "m2" 10 11).1
      = c3St.db ∧
    (handleBinaryAudio c3St allOpen allOpen 1 (.error c3Err) (.ok "resp") "m1" "m2" 10 11).2.filter
      isErrorEvent = [(1, .errorMsg c3Err.message)] ∧
    handleBinaryAudio
        ⟨c3St.sessions,
         (handleBinaryAudio c3St allOpen allOpen 1 (.error c3Err) (.ok "resp") "m1" "m2" 10 11).1⟩
        allOpen allOpen 1 (.ok "text") (.ok "reply") "m3" "m4" 20 21
      = handleBinaryAudio c3St allOpen allOpen 1 (.ok "text") (.ok "reply") "m3" "m4" 20 21 := by
  obtain ⟨h1, h2, h3⟩ := claim_C3_transcription_failure c3St allOpen allOpen 1 "I1" c3Err
    (.ok "resp") "m1" "m2" 10 11 (by decide) (by decide) rfl
  exact ⟨h1, h2, h3 (.ok "text") (.ok "reply") "m3" "m4" 20 21⟩

/-- Claim C5: `addMessage` with an interview id absent from the store
always throws and persists nothing: no message row referencing a
non-existent interview is ever created. -/
theorem claim_C5_addMessage_unknown_interview (db : DbState) (iid role content mid : String)
    (t : Int)
    (habs : db.interviews.any (fun r => r.interviewId == iid) = false) :
    (∃ e, addMessage db iid role content mid t = .error e) ∧
    addMessageState db iid role content mid t = db := by
  have herr : ∃ e, addMessage db iid role content mid t = .error e := by
    unfold addMessage
    split
    · exact ⟨_, rfl⟩
    · simp only [habs, Bool.not_false, if_true]
      exact ⟨_, rfl⟩
  refine ⟨herr, ?_⟩
  obtain ⟨e, he⟩ := herr
  unfold addMessageState
  rw [he]

/-- Witness for C5 at a concrete store lacking the interview id. -/
theorem claim_C5_witness :
    (∃ e, addMessage wDb "missing" "user" "hi" "m9" 7 = .error e) ∧
    addMessageState wDb "missing" "user" "hi" "m9" 7 = wDb :=
  claim_C5_addMessage_unknown_interview wDb "missing" "user" "hi" "m9" 7 (by decide)

/-- Claim C6: `broadcast` attempts delivery on exactly the attached
connections whose pairing matches the interview id and whose transport is
open; each such connection receives the payload exactly when its own send
succeeds, so one connection's failure never prevents delivery to the
others; the function is total, so it never raises to the caller. -/
theorem claim_C6_broadcast_delivery (sessions : Sessions) (openC okC : Conn → Bool)
    (iid : String) (ev : WsEvent) :
    broadcastAttempts openC iid sessions =
      (sessions.filter (fun p => p.2 == iid && openC p.1)).map Prod.fst ∧
    broadcast openC okC iid ev sessions =
      (sessions.filter (fun p => p.2 == iid && openC p.1 && okC p.1)).map (fun p => (p.1, ev)) := by
  induction sessions with
  | nil => exact ⟨rfl, rfl⟩
  | cons p rest ih =>
    obtain ⟨ws, sid⟩ := p
    constructor
    · simp only [broadcastAttempts, List.filter_cons]
      by_cases h1 : (sid == iid && openC ws) = true
      · simp [h1, ih.1]
      · simp only [Bool.not_eq_true] at h1
        simp [h1, ih.1]
    · simp only [broadcast, List.filter_cons]
      by_cases h1 : (sid == iid && openC ws) = true
      · by_cases h2 : okC ws = true
        · simp [h1, h2, ih.2]
        · simp only [Bool.not_eq_true] at h2
          simp [h1, h2, ih.2]
      · simp only [Bool.not_eq_true] at h1
        simp [h1, Bool.and_eq_false_iff.mpr (Or.inl h1), ih.2]

/-- Claim C7: a successful `addMessage` inserts exactly one message row
and leaves every interview row — status, timestamps, title, skills —
unchanged. -/
theorem claim_C7_addMessage_frame (db : DbState) (iid role content mid : String) (t : Int)
    (m : Message) (db2 : DbState)
    (h : addMessage db iid role content mid t = .ok (m, db2)) :
    db2.interviews = db.interviews ∧
    db2.messages = db.messages ++ [⟨mid, iid, role, content, t⟩] :=
  ⟨(addMessage_ok_spec h).2.1, (addMessage_ok_spec h).2.2⟩

/-- Witness for C7 at a concrete successful insert. -/
theorem claim_C7_witness :
    wDb1.interviews = wDb.interviews ∧
    wDb1.messages = wDb.messages ++ [⟨"m1", "I1", "user", "hello", 10⟩] :=
  claim_C7_addMessage_frame wDb "I1" "user" "hello" "m1" 10
    ⟨"m1", "I1", "user", "hello", 10⟩ wDb1 rfl

/-- Claim C8: `detach` (the `webSocketClose` cleanup) is idempotent and a
no-op on connections that were never attached; it is total, so it never
raises. -/
theorem claim_C8_detach_idempotent (s : Sessions) (ws : Conn) :
    detach (detach s ws) ws = detach s ws ∧
    (ws ∉ s.map Prod.fst → detach s ws = s) := by
  constructor
  · simp [detach, List.filter_filter]
  · intro h
    apply List.filter_eq_self.mpr
    intro p hp
    simp only [bne_iff_ne, ne_eq]
    intro hq
    exact h (hq ▸ List.mem_map_of_mem Prod.fst hp)

/-- Witness for C8: a second `detach` and a never-attached `detach` on a
concrete registry. -/
theorem claim_C8_witness :
    detach (detach wSessions 9) 9 = detach wSessions 9 ∧ detach wSessions 9 = wSessions :=
  ⟨(claim_C8_detach_idempotent wSessions 9).1,
   (claim_C8_detach_idempotent wSessions 9).2 (by decide)⟩

/-- Claim C9: the `Message` a successful `addMessage` returns is built
from the call's own arguments and the timestamp taken before the insert,
and the persisted row carries those same five values. -/
theorem claim_C9_addMessage_echo (db : DbState) (iid role content mid : String) (t : Int)
    (m : Message) (db2 : DbState)
    (h : addMessage db iid role content mid t = .ok (m, db2)) :
    m = ⟨mid, iid, role, content, t⟩ ∧
    db2.messages = db.messages ++ [⟨m.messageId, m.interviewId, m.role, m.content, m.timestamp⟩] := by
  obtain ⟨hm, _, hmsg⟩ := addMessage_ok_spec h
  subst hm
  exact ⟨rfl, hmsg⟩

/-- Witness for C9 at a concrete successful insert. -/
theorem claim_C9_witness :
    (⟨"m1", "I1", "user", "hello", 10⟩ : Message) = ⟨"m1", "I1", "user", "hello", 10⟩ ∧
    wDb1.messages = wDb.messages ++
      [⟨(⟨"m1", "I1", "user", "hello", 10⟩ : Message).messageId,
        (⟨"m1", "I1", "user", "hello", 10⟩ : Message).interviewId,
        (⟨"m1", "I1", "user", "hello", 10⟩ : Message).role,
        (⟨"m1", "I1", "user", "hello", 10⟩ : Message).content,
        (⟨"m1", "I1", "user", "hello", 10⟩ : Message).timestamp⟩] :=
  claim_C9_addMessage_echo wDb "I1" "user" "hello" "m1" 10
    ⟨"m1", "I1", "user", "hello", 10⟩ wDb1 rfl

end PerfectPitch
